import Mathlib

/-!
Verification of the Agent Trust Core of the agent-nexus repository.

The development shallowly embeds the relevant frontend TypeScript
(`frontend/src/lib/crypto.ts`, `frontend/src/lib/auth.ts`, the mock
compatibility scorer) and, for the backend components that the repository
only documents (KeyRegistry, ChallengeIssuer, SignatureVerifier,
SessionIssuer, SafetyOrchestrator), models them from the specification.

Conventions: bytes are `Nat` values below 256; JavaScript strings are Lean
`String`s; functions that may throw are embedded with `Option`/`Except`;
the tweetnacl Ed25519 primitives are modelled symbolically (a deterministic
signature function together with an equality-based verifier that performs
the same size checks as the library).
-/

namespace AgentNexus

/-! ## Base64 (tweetnacl-util `encodeBase64` / `decodeBase64`, i.e. btoa/atob) -/

/-- Character of the standard base64 alphabet for a 6-bit value. -/
def b64Char (n : Nat) : Char :=
  if n < 26 then Char.ofNat (65 + n)
  else if n < 52 then Char.ofNat (97 + (n - 26))
  else if n < 62 then Char.ofNat (48 + (n - 52))
  else if n = 62 then '+'
  else '/'

/-- Six-bit value of a base64 alphabet character; `none` for a character
outside the alphabet (atob throws there). -/
def b64Val (c : Char) : Option Nat :=
  if 65 ≤ c.toNat ∧ c.toNat ≤ 90 then some (c.toNat - 65)
  else if 97 ≤ c.toNat ∧ c.toNat ≤ 122 then some (c.toNat - 97 + 26)
  else if 48 ≤ c.toNat ∧ c.toNat ≤ 57 then some (c.toNat - 48 + 52)
  else if c = '+' then some 62
  else if c = '/' then some 63
  else none

theorem b64Val_lt {c : Char} {v : Nat} (h : b64Val c = some v) : v < 64 := by
  unfold b64Val at h
  repeat' split at h
  all_goals simp only [Option.some.injEq, reduceCtorEq] at h
  all_goals omega

/-- Base64-encode a byte list, three bytes to four characters, with
trailing `=` padding, exactly as btoa does. -/
def encodeChars : List Nat → List Char
  | [] => []
  | [a] => [b64Char (a / 4), b64Char (a % 4 * 16), '=', '=']
  | [a, b] => [b64Char (a / 4), b64Char (a % 4 * 16 + b / 16), b64Char (b % 16 * 4), '=']
  | a :: b :: c :: rest =>
      b64Char (a / 4) :: b64Char (a % 4 * 16 + b / 16) ::
      b64Char (b % 16 * 4 + c / 64) :: b64Char (c % 64) :: encodeChars rest

/-- Decode a base64 character list to bytes, atob semantics: groups of
four characters, `=` padding allowed only at the very end, the final
group may also be two or three unpadded characters (forgiving base64);
`none` models the exception atob throws on malformed input. -/
def decodeChars : List Char → Option (List Nat)
  | [] => some []
  | [w, x] =>
      match b64Val w, b64Val x with
      | some vw, some vx => some [vw * 4 + vx / 16]
      | _, _ => none
  | [w, x, y] =>
      match b64Val w, b64Val x, b64Val y with
      | some vw, some vx, some vy => some [vw * 4 + vx / 16, vx % 16 * 16 + vy / 4]
      | _, _, _ => none
  | w :: x :: y :: z :: rest =>
      if z = '=' then
        if rest ≠ [] then none
        else if y = '=' then
          match b64Val w, b64Val x with
          | some vw, some vx => some [vw * 4 + vx / 16]
          | _, _ => none
        else
          match b64Val w, b64Val x, b64Val y with
          | some vw, some vx, some vy => some [vw * 4 + vx / 16, vx % 16 * 16 + vy / 4]
          | _, _, _ => none
      else
        match b64Val w, b64Val x, b64Val y, b64Val z with
        | some vw, some vx, some vy, some vz =>
            match decodeChars rest with
            | some bs => some ((vw * 4 + vx / 16) :: (vx % 16 * 16 + vy / 4) ::
                               (vy % 4 * 64 + vz) :: bs)
            | none => none
        | _, _, _, _ => none
  | _ => none

/-- Embedding of tweetnacl-util `encodeBase64`. -/
def encodeBase64 (bytes : List Nat) : String :=
  String.mk (encodeChars bytes)

/-- Embedding of tweetnacl-util `decodeBase64`; `none` models the thrown
exception on invalid input. -/
def decodeBase64 (s : String) : Option (List Nat) :=
  decodeChars s.data

theorem b64Val_b64Char : ∀ n, n < 64 → b64Val (b64Char n) = some n := by
  decide

theorem b64Char_ne_eq : ∀ n, n < 64 → b64Char n ≠ '=' := by
  decide

/-- Decoding inverts encoding on genuine byte lists. -/
theorem decodeChars_encodeChars :
    ∀ bs : List Nat, (∀ b ∈ bs, b < 256) → decodeChars (encodeChars bs) = some bs := by
  intro bs
  induction bs using encodeChars.induct with
  | case1 => intro _; simp [encodeChars, decodeChars]
  | case2 a =>
      intro h
      have ha : a < 256 := h a (by simp)
      have h1 : a / 4 < 64 := by omega
      have h2 : a % 4 * 16 < 64 := by omega
      simp only [encodeChars, decodeChars, b64Val_b64Char _ h1, b64Val_b64Char _ h2]
      simp
      omega
  | case3 a b =>
      intro h
      have ha : a < 256 := h a (by simp)
      have hb : b < 256 := h b (by simp [List.mem_cons])
      have h1 : a / 4 < 64 := by omega
      have h2 : a % 4 * 16 + b / 16 < 64 := by omega
      have h3 : b % 16 * 4 < 64 := by omega
      have hy : b64Char (b % 16 * 4) ≠ '=' := b64Char_ne_eq _ h3
      simp only [encodeChars, decodeChars, b64Val_b64Char _ h1, b64Val_b64Char _ h2,
        b64Val_b64Char _ h3]
      simp [if_neg hy]
      omega
  | case4 a b c rest ih =>
      intro h
      have ha : a < 256 := h a (by simp)
      have hb : b < 256 := h b (by simp)
      have hc : c < 256 := h c (by simp)
      have hrest : ∀ x ∈ rest, x < 256 := by
        intro x hx
        exact h x (by simp [hx])
      have h1 : a / 4 < 64 := by omega
      have h2 : a % 4 * 16 + b / 16 < 64 := by omega
      have h3 : b % 16 * 4 + c / 64 < 64 := by omega
      have h4 : c % 64 < 64 := by omega
      have hz : b64Char (c % 64) ≠ '=' := b64Char_ne_eq _ h4
      simp only [encodeChars, decodeChars, b64Val_b64Char _ h1, b64Val_b64Char _ h2,
        b64Val_b64Char _ h3, b64Val_b64Char _ h4, if_neg hz, ih hrest]
      simp only [Option.some.injEq, List.cons.injEq, and_true]
      refine ⟨by omega, by omega, by omega⟩

/-- Every byte produced by the decoder is below 256. -/
theorem decodeChars_lt :
    ∀ cs : List Char, ∀ bs : List Nat, decodeChars cs = some bs → ∀ b ∈ bs, b < 256 := by
  intro cs
  induction cs using decodeChars.induct with
  | case1 =>
      intro bs h b hb
      simp only [decodeChars, Option.some.injEq] at h
      subst h
      cases hb
  | case2 w x vw vx hx hw =>
      intro bs h b hb
      simp only [decodeChars, hw, hx, Option.some.injEq] at h
      subst h
      have h1 := b64Val_lt hw
      have h2 := b64Val_lt hx
      simp only [List.mem_singleton] at hb
      omega
  | case3 w x hfalse =>
      intro bs h b hb
      exfalso
      simp only [decodeChars] at h
      rcases hw : b64Val w with _ | vw
      · simp [hw] at h
      · rcases hx : b64Val x with _ | vx
        · simp [hw, hx] at h
        · exact hfalse vw vx hw hx
  | case4 w x y vw vx vy hy hx hw =>
      intro bs h b hb
      simp only [decodeChars, hw, hx, hy, Option.some.injEq] at h
      subst h
      have h1 := b64Val_lt hw
      have h2 := b64Val_lt hx
      have h3 := b64Val_lt hy
      simp only [List.mem_cons, List.not_mem_nil, or_false] at hb
      rcases hb with rfl | rfl <;> omega
  | case5 w x y hfalse =>
      intro bs h b hb
      exfalso
      simp only [decodeChars] at h
      rcases hw : b64Val w with _ | vw
      · simp [hw] at h
      · rcases hx : b64Val x with _ | vx
        · simp [hw, hx] at h
        · rcases hy : b64Val y with _ | vy
          · simp [hw, hx, hy] at h
          · exact hfalse vw vx vy hw hx hy
  | case6 w x y rest hne =>
      intro bs h b hb
      exfalso
      simp only [decodeChars, eq_self_iff_true, if_true] at h
      rw [if_pos hne] at h
      exact Option.noConfusion h
  | case7 w x rest hne vw vx hx hw =>
      intro bs h b hb
      simp only [decodeChars, eq_self_iff_true, if_true, hne, if_false, hw, hx,
        Option.some.injEq] at h
      subst h
      have h1 := b64Val_lt hw
      have h2 := b64Val_lt hx
      simp only [List.mem_singleton] at hb
      omega
  | case8 w x rest hne hfalse =>
      intro bs h b hb
      exfalso
      simp only [decodeChars, eq_self_iff_true, if_true, hne, if_false] at h
      rcases hw : b64Val w with _ | vw
      · simp [hw] at h
      · rcases hx : b64Val x with _ | vx
        · simp [hw, hx] at h
        · exact hfalse vw vx hw hx
  | case9 w x y rest hne hyne vw vx vy hy hx hw =>
      intro bs h b hb
      simp only [decodeChars, eq_self_iff_true, if_true, hne, if_false, hyne, hw, hx, hy,
        Option.some.injEq] at h
      subst h
      have h1 := b64Val_lt hw
      have h2 := b64Val_lt hx
      have h3 := b64Val_lt hy
      simp only [List.mem_cons, List.not_mem_nil, or_false] at hb
      rcases hb with rfl | rfl <;> omega
  | case10 w x y rest hne hyne hfalse =>
      intro bs h b hb
      exfalso
      simp only [decodeChars, eq_self_iff_true, if_true, hne, if_false, hyne] at h
      rcases hw : b64Val w with _ | vw
      · simp [hw] at h
      · rcases hx : b64Val x with _ | vx
        · simp [hw, hx] at h
        · rcases hy : b64Val y with _ | vy
          · simp [hw, hx, hy] at h
          · exact hfalse vw vx vy hw hx hy
  | case11 w x y z rest hz vw vx vy vz hzv hyv hxv hwv bs1 hrest ih =>
      intro bs h b hb
      simp only [decodeChars, if_neg hz, hwv, hxv, hyv, hzv, hrest, Option.some.injEq] at h
      subst h
      have h1 := b64Val_lt hwv
      have h2 := b64Val_lt hxv
      have h3 := b64Val_lt hyv
      have h4 := b64Val_lt hzv
      simp only [List.mem_cons] at hb
      rcases hb with rfl | rfl | rfl | hb1
      · omega
      · omega
      · omega
      · exact ih bs1 hrest b hb1
  | case12 w x y z rest hz vw vx vy vz hzv hyv hxv hwv hrest ih =>
      intro bs h b hb
      exfalso
      simp only [decodeChars, if_neg hz, hwv, hxv, hyv, hzv, hrest] at h
      exact Option.noConfusion h
  | case13 w x y z rest hz hfalse =>
      intro bs h b hb
      exfalso
      simp only [decodeChars, if_neg hz] at h
      rcases hw : b64Val w with _ | vw
      · simp [hw] at h
      · rcases hx : b64Val x with _ | vx
        · simp [hw, hx] at h
        · rcases hy : b64Val y with _ | vy
          · simp [hw, hx, hy] at h
          · rcases hzz : b64Val z with _ | vz
            · simp [hw, hx, hy, hzz] at h
            · exact hfalse vw vx vy vz hw hx hy hzz
  | case14 t h0 h2 h3 h4 =>
      intro bs h b hb
      exfalso
      rcases t with _ | ⟨c, _ | ⟨d, _ | ⟨e, _ | ⟨f, t3⟩⟩⟩⟩
      · exact h0 rfl
      · rw [decodeChars.eq_def] at h
        simp at h
      · exact h2 c d rfl
      · exact h3 c d e rfl
      · exact h4 c d e f t3 rfl

/-- String-level base64 round trip: decoding inverts encoding. -/
theorem decodeBase64_encodeBase64 (bytes : List Nat) (h : ∀ b ∈ bytes, b < 256) :
    decodeBase64 (encodeBase64 bytes) = some bytes := by
  unfold decodeBase64 encodeBase64
  exact decodeChars_encodeChars bytes h

/-! ## Symbolic model of the tweetnacl Ed25519 primitives

`crypto.ts` calls into the external `tweetnacl` library.  The library is
modelled symbolically: the public key is an abstract deterministic
derivation from the 32-byte seed, the detached signature is an abstract
deterministic 64-byte function of the public key and the message, and
verification checks a candidate signature against that function.  The
size checks (and the exceptions the library throws when they fail,
modelled as `none`) match tweetnacl exactly. -/

/-- Symbolic public-key derivation from a 32-byte seed (an abstract fixed
bijection on byte lists stands in for the Ed25519 scalar multiplication). -/
def naclPubFromSeed (seed : List Nat) : List Nat :=
  seed.map (fun b => 255 - b)

/-- Symbolic deterministic detached Ed25519 signature over (public key,
message): a fixed 64-byte function of its inputs. -/
def naclSigBytes (pk msg : List Nat) : List Nat :=
  (pk ++ pk ++ msg ++ List.replicate 64 0).take 64

/-- A tweetnacl signing keypair: 32-byte public key, 64-byte secret key. -/
structure NaclKeyPair where
  publicKey : List Nat
  secretKey : List Nat
deriving DecidableEq

/-- Model of `nacl.sign.keyPair()`: the secret key is the seed followed by
the derived public key, as in tweetnacl. -/
def naclSignKeyPair (seed : List Nat) : NaclKeyPair :=
  let pk := naclPubFromSeed seed
  { publicKey := pk, secretKey := seed ++ pk }

/-- Model of `nacl.sign.keyPair.fromSecretKey`: the public key is the
second half of the 64-byte secret key; `none` models the thrown
TypeError on a wrong-size secret key. -/
def naclKeyPairFromSecretKey (sk : List Nat) : Option NaclKeyPair :=
  if sk.length = 64 then some { publicKey := sk.drop 32, secretKey := sk } else none

/-- Model of `nacl.sign.detached`: `none` models the thrown TypeError
when the secret key is not 64 bytes. -/
def naclSignDetached (msg sk : List Nat) : Option (List Nat) :=
  if sk.length = 64 then some (naclSigBytes (sk.drop 32) msg) else none

/-- Model of `nacl.sign.detached.verify`: `none` models the thrown
TypeError on a wrong-size signature or public key; otherwise the
symbolic equality check against the deterministic signature. -/
def naclVerifyDetached (msg sig pk : List Nat) : Option Bool :=
  if sig.length ≠ 64 then none
  else if pk.length ≠ 32 then none
  else some (sig == naclSigBytes pk msg)

/-! ## Embedding of `frontend/src/lib/crypto.ts` -/

/-- `Keypair` interface of crypto.ts: base64-encoded key strings. -/
structure Keypair where
  publicKey : String
  privateKey : String
deriving DecidableEq

/-- `generateKeypair` of crypto.ts; the random seed drawn inside
`nacl.sign.keyPair()` is made an explicit argument. -/
def generateKeypair (seed : List Nat) : Keypair :=
  let keypair := naclSignKeyPair seed
  { publicKey := encodeBase64 keypair.publicKey
    privateKey := encodeBase64 keypair.secretKey }

/-- `signChallenge` of crypto.ts: decode the challenge and the private
key, produce a detached signature, base64-encode it; any exception in
the body is caught and rethrown as the fixed error string. -/
def signChallenge (challengeB64 privateKeyB64 : String) : Except String String :=
  match decodeBase64 challengeB64, decodeBase64 privateKeyB64 with
  | some challenge, some privateKey =>
      match naclSignDetached challenge privateKey with
      | some signature => .ok (encodeBase64 signature)
      | none => .error "Failed to sign challenge"
  | _, _ => .error "Failed to sign challenge"

/-- `verifySignature` of crypto.ts: decode all three inputs and run the
detached verification; any exception (bad base64, wrong sizes) is caught
by the surrounding try/catch, which returns `false`. -/
def verifySignature (messageB64 signatureB64 publicKeyB64 : String) : Bool :=
  match decodeBase64 messageB64, decodeBase64 signatureB64, decodeBase64 publicKeyB64 with
  | some message, some signature, some publicKey =>
      match naclVerifyDetached message signature publicKey with
      | some result => result
      | none => false
  | _, _, _ => false

/-- `isValidKeypair` of crypto.ts: both keys must decode, the public key
must be 32 bytes, the private key 64 bytes, and the public key derived
from the private key must re-encode to the stored public key string. -/
def isValidKeypair (keypair : Keypair) : Bool :=
  match decodeBase64 keypair.publicKey, decodeBase64 keypair.privateKey with
  | some publicKey, some privateKey =>
      if publicKey.length ≠ 32 then false
      else if privateKey.length ≠ 64 then false
      else
        match naclKeyPairFromSecretKey privateKey with
        | some derivedKeypair => encodeBase64 derivedKeypair.publicKey == keypair.publicKey
        | none => false
  | _, _ => false

theorem naclPubFromSeed_lt (seed : List Nat) (b : Nat) (hb : b ∈ naclPubFromSeed seed) :
    b < 256 := by
  unfold naclPubFromSeed at hb
  rcases List.mem_map.mp hb with ⟨a, _, ha⟩
  omega

theorem naclPubFromSeed_length (seed : List Nat) :
    (naclPubFromSeed seed).length = seed.length := by
  unfold naclPubFromSeed
  exact List.length_map seed _

theorem naclSigBytes_length (pk msg : List Nat) : (naclSigBytes pk msg).length = 64 := by
  unfold naclSigBytes
  rw [List.length_take]
  simp only [List.length_append, List.length_replicate]
  omega

theorem naclSigBytes_lt (pk msg : List Nat) (hpk : ∀ b ∈ pk, b < 256)
    (hmsg : ∀ b ∈ msg, b < 256) : ∀ b ∈ naclSigBytes pk msg, b < 256 := by
  intro b hb
  unfold naclSigBytes at hb
  have hmem := List.mem_of_mem_take hb
  rcases List.mem_append.mp hmem with h1 | hz
  · rcases List.mem_append.mp h1 with h2 | hm
    · rcases List.mem_append.mp h2 with h3 | h4
      · exact hpk b h3
      · exact hpk b h4
    · exact hmsg b hm
  · have := List.eq_of_mem_replicate hz
    omega

/-- C9: sign/verify round trip.  For every keypair produced by
`generateKeypair` (seed made explicit) and every base64-encoded message,
`signChallenge` succeeds and `verifySignature` accepts the produced
signature against the keypair's public key. -/
theorem sign_verify_roundtrip (seed : List Nat) (msgB64 : String) (msg : List Nat)
    (hlen : seed.length = 32) (hbytes : ∀ b ∈ seed, b < 256)
    (hmsg : decodeBase64 msgB64 = some msg) :
    ∃ sigB64, signChallenge msgB64 (generateKeypair seed).privateKey = .ok sigB64 ∧
      verifySignature msgB64 sigB64 (generateKeypair seed).publicKey = true := by
  have hmsglt : ∀ b ∈ msg, b < 256 := decodeChars_lt msgB64.data msg hmsg
  have hpklt : ∀ b ∈ naclPubFromSeed seed, b < 256 := naclPubFromSeed_lt seed
  have hsklt : ∀ b ∈ seed ++ naclPubFromSeed seed, b < 256 := by
    intro b hb
    rcases List.mem_append.mp hb with h1 | h2
    · exact hbytes b h1
    · exact hpklt b h2
  have hsklen : (seed ++ naclPubFromSeed seed).length = 64 := by
    rw [List.length_append, naclPubFromSeed_length, hlen]
  have hskdec : decodeBase64 (encodeBase64 (seed ++ naclPubFromSeed seed)) =
      some (seed ++ naclPubFromSeed seed) :=
    decodeBase64_encodeBase64 _ hsklt
  have hdrop : (seed ++ naclPubFromSeed seed).drop 32 = naclPubFromSeed seed := by
    rw [← hlen, List.drop_left]
  have hsiglt : ∀ b ∈ naclSigBytes (naclPubFromSeed seed) msg, b < 256 :=
    naclSigBytes_lt _ _ hpklt hmsglt
  have hsigdec : decodeBase64 (encodeBase64 (naclSigBytes (naclPubFromSeed seed) msg)) =
      some (naclSigBytes (naclPubFromSeed seed) msg) :=
    decodeBase64_encodeBase64 _ hsiglt
  have hpkdec : decodeBase64 (encodeBase64 (naclPubFromSeed seed)) =
      some (naclPubFromSeed seed) :=
    decodeBase64_encodeBase64 _ hpklt
  refine ⟨encodeBase64 (naclSigBytes (naclPubFromSeed seed) msg), ?_, ?_⟩
  · show signChallenge msgB64 (encodeBase64 (seed ++ naclPubFromSeed seed)) = _
    simp only [signChallenge, hmsg, hskdec]
    simp [naclSignDetached, hsklen, hdrop]
  · show verifySignature msgB64 _ (encodeBase64 (naclPubFromSeed seed)) = true
    simp only [verifySignature, hmsg, hsigdec, hpkdec]
    simp [naclVerifyDetached, naclSigBytes_length, naclPubFromSeed_length, hlen]

/-- C9 witness: concrete round trip at the all-zero seed and the empty
message. -/
theorem sign_verify_roundtrip_witness :
    (List.replicate 32 0).length = 32 ∧ (∀ b ∈ List.replicate 32 0, b < 256) ∧
    decodeBase64 "" = some [] ∧
    (∃ sigB64, signChallenge "" (generateKeypair (List.replicate 32 0)).privateKey =
        .ok sigB64 ∧
      verifySignature "" sigB64 (generateKeypair (List.replicate 32 0)).publicKey = true) :=
  ⟨by decide, by decide, by decide,
    sign_verify_roundtrip (List.replicate 32 0) "" [] (by decide) (by decide) (by decide)⟩

/-- C10: `verifySignature` is total — it returns a boolean for every
triple of input strings, and returns `false` whenever any base64 decode
fails or the decoded signature or public key has the wrong size (the
cases in which tweetnacl throws and the try/catch returns `false`). -/
theorem verifySignature_false_on_failure (m s p : String) :
    ((decodeBase64 m = none ∨ decodeBase64 s = none ∨ decodeBase64 p = none) →
      verifySignature m s p = false) ∧
    (∀ sig, decodeBase64 s = some sig → sig.length ≠ 64 → verifySignature m s p = false) ∧
    (∀ pk, decodeBase64 p = some pk → pk.length ≠ 32 → verifySignature m s p = false) ∧
    (verifySignature m s p = true ∨ verifySignature m s p = false) := by
  refine ⟨?_, ?_, ?_, ?_⟩
  · intro h
    unfold verifySignature
    rcases h1 : decodeBase64 m with _ | msg <;> rcases h2 : decodeBase64 s with _ | sig <;>
      rcases h3 : decodeBase64 p with _ | pk <;> simp_all
  · intro sig hs hlen
    unfold verifySignature
    rcases h1 : decodeBase64 m with _ | msg <;> rcases h3 : decodeBase64 p with _ | pk <;>
      simp_all [naclVerifyDetached]
  · intro pk hp hlen
    unfold verifySignature
    rcases h1 : decodeBase64 m with _ | msg <;> rcases h2 : decodeBase64 s with _ | sig <;>
      simp_all [naclVerifyDetached]
  · rcases hv : verifySignature m s p
    · exact Or.inr rfl
    · exact Or.inl rfl

/-- C10 witness: a string that is not valid base64 makes `verifySignature`
return `false`. -/
theorem verifySignature_false_witness :
    (decodeBase64 "a" = none ∨ decodeBase64 "" = none ∨ decodeBase64 "" = none) ∧
    verifySignature "a" "" "" = false :=
  ⟨Or.inl (by decide),
    (verifySignature_false_on_failure "a" "" "").1 (Or.inl (by decide))⟩

/-! ## Embedding of `frontend/src/lib/auth.ts` -/

/-- Model of JavaScript `token.split('.')`: split a character list at
every dot. -/
def splitOnDot : List Char → List (List Char)
  | [] => [[]]
  | c :: rest =>
      let r := splitOnDot rest
      if c = '.' then [] :: r
      else
        match r with
        | [] => [[c]]
        | seg :: segs => (c :: seg) :: segs

/-- `token.split('.')` as a list of strings. -/
def jsSplitDot (s : String) : List String :=
  (splitOnDot s.data).map String.mk

/-- Decimal digit run to a number; `none` when there is no digit (a JSON
parse failure). -/
def readExpDigits (cs : List Char) : Option Nat :=
  let ds := cs.takeWhile Char.isDigit
  if ds = [] then none
  else some (ds.foldl (fun acc c => acc * 10 + (c.toNat - 48)) 0)

/-- Minimal model of `JSON.parse(payload).exp`: the decimal number that
follows the first occurrence of the literal `"exp":` in the payload
text; `none` models a JSON parse failure (caught by the try/catch). -/
def findExpField : List Char → Option Nat
  | [] => none
  | c :: rest =>
      if List.isPrefixOf ("\"exp\":".data) (c :: rest) then
        readExpDigits ((c :: rest).drop 6)
      else findExpField rest

/-- Payload step of `isAuthenticated`: take segment 1 of the token split
on dots, base64-decode it (atob), and extract `exp`; `none` models any
thrown exception (missing segment, bad base64, unparsable JSON). -/
def parseTokenExp (token : String) : Option Nat :=
  match (jsSplitDot token).get? 1 with
  | none => none
  | some seg =>
      match decodeBase64 seg with
      | none => none
      | some bytes => findExpField (bytes.map Char.ofNat)

/-- `isAuthenticated` of auth.ts: `false` when no token is stored; for a
stored token, decode the JWT payload and compare `Date.now()` with
`exp * 1000`; any exception yields `false`. -/
def isAuthenticated (stored : Option String) (now : Nat) : Bool :=
  match stored with
  | none => false
  | some token =>
      match parseTokenExp token with
      | none => false
      | some exp => decide (now < exp * 1000)

/-- `clearToken` of auth.ts: removes the stored token. -/
def clearToken (_stored : Option String) : Option String := none

/-- `logout` of auth.ts: clears the token (client-side revocation of the
session). -/
def logout (stored : Option String) : Option String := clearToken stored

/-- The three failure causes of the session check: missing/revoked token,
corrupted token (payload does not parse), expired token. -/
def sessionCheckFails (stored : Option String) (now : Nat) : Prop :=
  stored = none ∨ (∃ tok, stored = some tok ∧ parseTokenExp tok = none) ∨
    (∃ tok e, stored = some tok ∧ parseTokenExp tok = some e ∧ e * 1000 ≤ now)

/-- C5: uniform session-validation failure.  Whatever the cause — the
token is missing or revoked (cleared), corrupted (payload does not
parse), or expired — `isAuthenticated` returns the same observable
result `false`, so the caller cannot distinguish the failure mode; and a
token cleared by `logout` also fails identically. -/
theorem session_failure_uniform (t1 t2 : Option String) (now : Nat)
    (h1 : sessionCheckFails t1 now) (h2 : sessionCheckFails t2 now) :
    isAuthenticated t1 now = false ∧
    isAuthenticated t1 now = isAuthenticated t2 now ∧
    isAuthenticated (logout t1) now = false := by
  have key : ∀ t, sessionCheckFails t now → isAuthenticated t now = false := by
    intro t ht
    rcases ht with rfl | ⟨tok, rfl, hp⟩ | ⟨tok, e, rfl, hp, he⟩
    · rfl
    · simp [isAuthenticated, hp]
    · simp [isAuthenticated, hp]
      omega
  exact ⟨key t1 h1, by rw [key t1 h1, key t2 h2], rfl⟩

/-- C5 witness: a corrupted token (no payload segment) and a missing
token fail with the same observable result. -/
theorem session_failure_uniform_witness :
    sessionCheckFails (some "abc") 0 ∧ sessionCheckFails none 0 ∧
    (isAuthenticated (some "abc") 0 = false ∧
      isAuthenticated (some "abc") 0 = isAuthenticated none 0 ∧
      isAuthenticated (logout (some "abc")) 0 = false) :=
  ⟨Or.inr (Or.inl ⟨"abc", rfl, by decide⟩), Or.inl rfl,
    session_failure_uniform (some "abc") none 0
      (Or.inr (Or.inl ⟨"abc", rfl, by decide⟩)) (Or.inl rfl)⟩

/-! ## Embedding of the mock compatibility scorer
(`AgentProfile`, `CompatibilityReason`, `DiscoverCard` from
`frontend/src/lib/types.ts`; `generateMockCompatibility` from the mock
data module).  Presentation-only profile fields (avatar, capabilities,
boundaries, timezone, timestamps) are elided; no claim depends on them. -/

/-- `AgentStyleSliders` of types.ts: three sliders in 0-100. -/
structure AgentStyleSliders where
  terseness : Nat
  cautiousness : Nat
  creativity : Nat
deriving DecidableEq

/-- Core fields of `AgentProfile` of types.ts. -/
structure AgentProfile where
  id : String
  handle : String
  displayName : String
  tagline : String
  bio : String
  skills : List String
  seeking : List String
  style : AgentStyleSliders
deriving DecidableEq

/-- `CompatibilityReason` of types.ts: a typed sub-score in [0,1] with a
message. -/
structure CompatibilityReason where
  type : String
  message : String
  score : ℚ
deriving DecidableEq

/-- `DiscoverCard` of types.ts: profile, 0-100 compatibility score,
reasons. -/
structure DiscoverCard where
  profile : AgentProfile
  compatibilityScore : ℤ
  reasons : List CompatibilityReason
deriving DecidableEq

/-- `generateMockCompatibility` of the mock data module: the score is
`Math.floor(Math.random() * 30) + 70`; the random draw `r` (a value in
[0,1)) is made an explicit argument. -/
def generateMockCompatibility (agent : AgentProfile) (r : ℚ) : DiscoverCard :=
  let score : ℤ := Int.floor (r * 30) + 70
  { profile := agent
    compatibilityScore := score
    reasons := [
      { type := "skill", message := "Complementary skill sets", score := 0.8 },
      { type := "seeking", message := "Aligned collaboration goals", score := 0.75 } ] }

/-- A concrete agent profile used in the counterexamples. -/
def agentA : AgentProfile :=
  { id := "agent-001"
    handle := "codeweaver"
    displayName := "CodeWeaver"
    tagline := "Full-stack specialist"
    bio := "Agent focused on collaborative coding"
    skills := ["python", "research"]
    seeking := ["collab"]
    style := { terseness := 50, cautiousness := 50, creativity := 50 } }

/-- C3 counterexample: the compatibility score is drawn from
`Math.random()`, so two runs on the same profile with different draws
(both legitimate values of `Math.random()`) return different
`DiscoverCard`s — scoring is not reproducible from the inputs. -/
theorem mock_score_not_reproducible :
    (0:ℚ) ≤ 0 ∧ (0:ℚ) < 1 ∧ (0:ℚ) ≤ 1/2 ∧ (1/2:ℚ) < 1 ∧
    generateMockCompatibility agentA 0 ≠ generateMockCompatibility agentA (1/2) := by
  refine ⟨by norm_num, by norm_num, by norm_num, by norm_num, ?_⟩
  intro h
  have hs := congrArg DiscoverCard.compatibilityScore h
  simp only [generateMockCompatibility] at hs
  norm_num at hs

/-- C3 amended: for a fixed random draw the mock scorer is a pure
function of its inputs — the score equals `floor(30 r) + 70`, lies in
[70, 99] for every legitimate draw, and the profile is passed through
unchanged; all run-to-run variation comes from the draw alone. -/
theorem mock_score_formula (a : AgentProfile) (r : ℚ) (h0 : 0 ≤ r) (h1 : r < 1) :
    (generateMockCompatibility a r).compatibilityScore = Int.floor (r * 30) + 70 ∧
    70 ≤ (generateMockCompatibility a r).compatibilityScore ∧
    (generateMockCompatibility a r).compatibilityScore ≤ 99 ∧
    (generateMockCompatibility a r).profile = a := by
  have hnn : (0:ℚ) ≤ r * 30 := by positivity
  have hlt : r * 30 < 30 := by nlinarith
  have hfl : (0:ℤ) ≤ Int.floor (r * 30) := Int.floor_nonneg.mpr hnn
  have hfu : Int.floor (r * 30) < 30 := Int.floor_lt.mpr (by exact_mod_cast hlt)
  refine ⟨rfl, ?_, ?_, rfl⟩
  · simp only [generateMockCompatibility]
    omega
  · simp only [generateMockCompatibility]
    omega

/-- C3 amended witness: the formula at the draw 1/2. -/
theorem mock_score_formula_witness :
    (0:ℚ) ≤ 1/2 ∧ (1/2:ℚ) < 1 ∧
    ((generateMockCompatibility agentA (1/2)).compatibilityScore =
        Int.floor ((1/2:ℚ) * 30) + 70 ∧
      70 ≤ (generateMockCompatibility agentA (1/2)).compatibilityScore ∧
      (generateMockCompatibility agentA (1/2)).compatibilityScore ≤ 99 ∧
      (generateMockCompatibility agentA (1/2)).profile = agentA) :=
  ⟨by norm_num, by norm_num, mock_score_formula agentA (1/2) (by norm_num) (by norm_num)⟩

/-- C4 counterexample: self-scoring does not return 1.0.  At the
legitimate draw 1/2 the mock scorer gives the profile a score of 85 on
the 0-100 boundary scale, which is neither 100 nor 1.0 internally. -/
theorem self_score_not_one :
    (0:ℚ) ≤ 1/2 ∧ (1/2:ℚ) < 1 ∧
    (generateMockCompatibility agentA (1/2)).compatibilityScore = 85 ∧
    (generateMockCompatibility agentA (1/2)).compatibilityScore ≠ 100 ∧
    ((generateMockCompatibility agentA (1/2)).compatibilityScore : ℚ) / 100 ≠ 1 := by
  have h : (generateMockCompatibility agentA (1/2)).compatibilityScore = 85 := by
    simp only [generateMockCompatibility]
    norm_num
  refine ⟨by norm_num, by norm_num, h, ?_, ?_⟩
  · rw [h]; norm_num
  · rw [h]; norm_num

/-- C4 amended: the mock compatibility score never reaches the value
standing for overall = 1.0 (100 on the boundary scale) for any
legitimate draw, and the skill sub-score is the constant 0.8, which does
lie in [0,1]. -/
theorem self_score_bounds (a : AgentProfile) (r : ℚ) (_h0 : 0 ≤ r) (h1 : r < 1) :
    (generateMockCompatibility a r).compatibilityScore < 100 ∧
    ∃ reason, (generateMockCompatibility a r).reasons.get? 0 = some reason ∧
      reason.type = "skill" ∧ 0 ≤ reason.score ∧ reason.score ≤ 1 := by
  have hlt : r * 30 < 30 := by nlinarith
  have hfu : Int.floor (r * 30) < 30 := Int.floor_lt.mpr (by exact_mod_cast hlt)
  constructor
  · simp only [generateMockCompatibility]
    omega
  · exact ⟨_, rfl, rfl, by norm_num, by norm_num⟩

/-- C4 amended witness: the bounds at the draw 1/2. -/
theorem self_score_bounds_witness :
    (0:ℚ) ≤ 1/2 ∧ (1/2:ℚ) < 1 ∧
    ((generateMockCompatibility agentA (1/2)).compatibilityScore < 100 ∧
      ∃ reason, (generateMockCompatibility agentA (1/2)).reasons.get? 0 = some reason ∧
        reason.type = "skill" ∧ 0 ≤ reason.score ∧ reason.score ≤ 1) :=
  ⟨by norm_num, by norm_num, self_score_bounds agentA (1/2) (by norm_num) (by norm_num)⟩

/-! ## KeyRegistry (spec §2, §6) -/

/-- Registration failure modes of the registry. -/
inductive RegisterError where
  | keyAlreadyBound
  | agentAlreadyBound
deriving DecidableEq

/-- Modelled from the spec: the KeyRegistry / Registration collaborator
(the backend registration endpoint is not under src/; the frontend only
posts to it).  It binds a new `(agent_id, public_key)` pair exactly once
and rejects any later attempt to rebind a key to a different `agent_id`
or vice versa; on rejection the registry is left unchanged. -/
def register (reg : List (String × List Nat)) (aid : String) (pk : List Nat) :
    Except RegisterError (List (String × List Nat)) :=
  if reg.any (fun e => e.2 == pk) then .error .keyAlreadyBound
  else if reg.any (fun e => e.1 == aid) then .error .agentAlreadyBound
  else .ok (reg ++ [(aid, pk)])

/-- The agent a public key is bound to, if any. -/
def bindingOf (reg : List (String × List Nat)) (pk : List Nat) : Option String :=
  (reg.find? (fun e => e.2 == pk)).map (fun e => e.1)

/-- Run a whole sequence of registration attempts; a failed attempt
leaves the registry unchanged. -/
def applyOps (reg : List (String × List Nat)) :
    List (String × List Nat) → List (String × List Nat)
  | [] => reg
  | (aid, pk) :: rest =>
      match register reg aid pk with
      | .ok reg1 => applyOps reg1 rest
      | .error _ => applyOps reg rest

theorem find?_pred {α : Type} (p : α → Bool) (l : List α) (a : α)
    (h : l.find? p = some a) : p a = true :=
  List.find?_some h

theorem find?_mem {α : Type} (p : α → Bool) (l : List α) (a : α)
    (h : l.find? p = some a) : a ∈ l :=
  List.mem_of_find?_eq_some h

theorem register_fails_of_bound (reg : List (String × List Nat)) (aid1 : String)
    (pk : List Nat) (e : String × List Nat)
    (hfind : reg.find? (fun x => x.2 == pk) = some e) :
    register reg aid1 pk = .error .keyAlreadyBound := by
  have hany : reg.any (fun x => x.2 == pk) = true :=
    List.any_eq_true.mpr ⟨e, find?_mem _ reg e hfind, find?_pred _ reg e hfind⟩
  unfold register
  rw [if_pos hany]

/-- C2: key-to-identity binding is immutable.  If `pk` is bound to agent
`aid`, then registering `pk` under any agent (in particular a different
one) fails with the key-already-bound error, and after every further
sequence of registration operations the binding of `pk` is still `aid` —
it is never silently overwritten. -/
theorem register_binding_immutable (reg : List (String × List Nat)) (aid aid1 : String)
    (pk : List Nat) (ops : List (String × List Nat))
    (hb : bindingOf reg pk = some aid) :
    register reg aid1 pk = .error .keyAlreadyBound ∧
    bindingOf (applyOps reg ops) pk = some aid := by
  obtain ⟨e, hfind, haid⟩ : ∃ e, reg.find? (fun x => x.2 == pk) = some e ∧ e.1 = aid := by
    unfold bindingOf at hb
    rcases hf : reg.find? (fun x => x.2 == pk) with _ | e
    · rw [hf] at hb; exact absurd hb (by simp)
    · rw [hf] at hb
      have hb1 : some e.1 = some aid := hb
      exact ⟨e, hf, Option.some.inj hb1⟩
  refine ⟨register_fails_of_bound reg aid1 pk e hfind, ?_⟩
  clear hb
  induction ops generalizing reg with
  | nil =>
      unfold applyOps bindingOf
      rw [hfind]
      exact haid ▸ rfl
  | cons op rest ih =>
      obtain ⟨aid2, pk2⟩ := op
      simp only [applyOps]
      rcases hreg : register reg aid2 pk2 with err | reg1
      · exact ih reg hfind
      · unfold register at hreg
        split at hreg
        · exact Except.noConfusion hreg
        · split at hreg
          · exact Except.noConfusion hreg
          · simp only [Except.ok.injEq] at hreg
            subst hreg
            apply ih
            rw [List.find?_append, hfind]
            rfl

/-- C2 witness: a bound key cannot be re-registered by another agent and
survives a further operation sequence unchanged. -/
theorem register_binding_immutable_witness :
    bindingOf [("alice", [1, 2])] [1, 2] = some "alice" ∧
    (register [("alice", [1, 2])] "bob" [1, 2] = .error .keyAlreadyBound ∧
      bindingOf (applyOps [("alice", [1, 2])] [("bob", [1, 2]), ("carol", [3])]) [1, 2] =
        some "alice") :=
  ⟨by decide,
    register_binding_immutable [("alice", [1, 2])] "alice" "bob" [1, 2]
      [("bob", [1, 2]), ("carol", [3])] (by decide)⟩

/-! ## ChallengeIssuer and SignatureVerifier (spec §4.1, §4.2) -/

/-- Error taxonomy of spec §7 (authentication-path errors). -/
inductive AuthError where
  | InvalidKeyFormat
  | ChallengeNotFound
  | ChallengeExpired
  | SignatureInvalid
  | KeyNotRegistered
  | SessionInvalid
  | RateLimited
  | MessageTooLong
deriving DecidableEq

/-- A single-use authentication nonce (spec §3, Challenge). -/
structure Challenge where
  nonce : List Nat
  public_key : List Nat
  issued_at : Nat
  expires_at : Nat
  consumed : Bool
deriving DecidableEq

/-- State of the authentication core: the key registry and the pending
challenge store. -/
structure AuthState where
  registry : List (String × List Nat)
  challenges : List Challenge
deriving DecidableEq

/-- Hex digit value. -/
def hexVal (c : Char) : Option Nat :=
  if 48 ≤ c.toNat ∧ c.toNat ≤ 57 then some (c.toNat - 48)
  else if 97 ≤ c.toNat ∧ c.toNat ≤ 102 then some (c.toNat - 97 + 10)
  else if 65 ≤ c.toNat ∧ c.toNat ≤ 70 then some (c.toNat - 65 + 10)
  else none

/-- Hex decoding: pairs of hex digits to bytes. -/
def decodeHexChars : List Char → Option (List Nat)
  | [] => some []
  | [_] => none
  | h :: l :: rest =>
      match hexVal h, hexVal l, decodeHexChars rest with
      | some vh, some vl, some bs => some ((vh * 16 + vl) :: bs)
      | _, _, _ => none

/-- Hex decoding of a string. -/
def decodeHex (s : String) : Option (List Nat) :=
  decodeHexChars s.data

/-- The hex reading of a key string when it yields exactly 32 bytes. -/
def decodedHexKey (pk : String) : Option (List Nat) :=
  match decodeHex pk with
  | some bs => if bs.length = 32 then some bs else none
  | none => none

/-- Modelled from the spec: the syntactic key-format check of
ChallengeIssuer (§4.1) — `public_key` must be base64- or hex-decodable
to exactly 32 bytes (the backend challenge endpoint is not under src/;
the frontend `isValidKeypair` performs the same 32-byte base64 check
client-side). -/
def decodedKeyBytes (pk : String) : Option (List Nat) :=
  match decodeBase64 pk with
  | some bs => if bs.length = 32 then some bs else decodedHexKey pk
  | none => decodedHexKey pk

/-- Challenge TTL recommended by the spec (≤ 120 s). -/
def CHALLENGE_TTL : Nat := 120

/-- Modelled from the spec: `IssueChallenge(public_key)` (§4.1) — fails
with `InvalidKeyFormat` on a syntactically invalid key, otherwise stores
a pending unconsumed Challenge and returns the nonce with its TTL.  The
random nonce is an explicit argument. -/
def issueChallenge (st : AuthState) (pkStr : String) (nonce : List Nat) (now : Nat) :
    Except AuthError ((List Nat × Nat) × AuthState) :=
  match decodedKeyBytes pkStr with
  | none => .error .InvalidKeyFormat
  | some pk =>
      let c : Challenge :=
        { nonce := nonce, public_key := pk, issued_at := now,
          expires_at := now + CHALLENGE_TTL, consumed := false }
      .ok ((nonce, CHALLENGE_TTL), { st with challenges := c :: st.challenges })

/-- C8: challenge issuance validates the key format.  If neither the
base64 nor the hex reading of the key yields exactly 32 bytes,
`issueChallenge` fails with `InvalidKeyFormat`; if the base64 reading
yields exactly 32 bytes, it proceeds and stores the pending challenge. -/
theorem issue_challenge_key_format (st : AuthState) (pkStr : String) (nonce : List Nat)
    (now : Nat) :
    ((∀ bs, decodeBase64 pkStr = some bs → bs.length ≠ 32) →
      (∀ bs, decodeHex pkStr = some bs → bs.length ≠ 32) →
      issueChallenge st pkStr nonce now = .error .InvalidKeyFormat) ∧
    (∀ bs, decodeBase64 pkStr = some bs → bs.length = 32 →
      ∃ st1, issueChallenge st pkStr nonce now = .ok ((nonce, CHALLENGE_TTL), st1) ∧
        ({ nonce := nonce, public_key := bs, issued_at := now,
           expires_at := now + CHALLENGE_TTL, consumed := false } : Challenge) ∈
          st1.challenges) := by
  constructor
  · intro hb64 hhex
    have hhexkey : decodedHexKey pkStr = none := by
      unfold decodedHexKey
      rcases hh : decodeHex pkStr with _ | bs
      · rfl
      · simp [hhex bs hh]
    unfold issueChallenge decodedKeyBytes
    rcases h64 : decodeBase64 pkStr with _ | bs
    · simp [hhexkey]
    · simp [hb64 bs h64, hhexkey]
  · intro bs h64 hlen
    have hok : issueChallenge st pkStr nonce now = .ok ((nonce, CHALLENGE_TTL),
        { st with challenges :=
            ({ nonce := nonce, public_key := bs, issued_at := now,
               expires_at := now + CHALLENGE_TTL, consumed := false } : Challenge) ::
            st.challenges }) := by
      unfold issueChallenge decodedKeyBytes
      rw [h64]
      simp [hlen]
    exact ⟨_, hok, by simp⟩

/-- C8 witness: an invalid key string is rejected; a valid 32-byte
base64 key is accepted. -/
theorem issue_challenge_key_format_witness :
    ((∀ bs, decodeBase64 "!!" = some bs → bs.length ≠ 32) ∧
      (∀ bs, decodeHex "!!" = some bs → bs.length ≠ 32) ∧
      issueChallenge ⟨[], []⟩ "!!" [7] 0 = .error .InvalidKeyFormat) ∧
    (decodeBase64 (encodeBase64 (List.replicate 32 0)) = some (List.replicate 32 0) ∧
      (∃ st1, issueChallenge ⟨[], []⟩ (encodeBase64 (List.replicate 32 0)) [7] 0 =
          .ok (([7], CHALLENGE_TTL), st1) ∧
        ({ nonce := [7], public_key := List.replicate 32 0, issued_at := 0,
           expires_at := 0 + CHALLENGE_TTL, consumed := false } : Challenge) ∈
          st1.challenges)) := by
  have hb : ∀ bs, decodeBase64 "!!" = some bs → bs.length ≠ 32 := by
    intro bs h
    have hn : decodeBase64 "!!" = none := by decide
    rw [hn] at h
    exact Option.noConfusion h
  have hh : ∀ bs, decodeHex "!!" = some bs → bs.length ≠ 32 := by
    intro bs h
    have hn : decodeHex "!!" = none := by decide
    rw [hn] at h
    exact Option.noConfusion h
  exact ⟨⟨hb, hh, (issue_challenge_key_format ⟨[], []⟩ "!!" [7] 0).1 hb hh⟩,
    ⟨by decide,
      (issue_challenge_key_format ⟨[], []⟩ (encodeBase64 (List.replicate 32 0)) [7] 0).2
        (List.replicate 32 0) (by decide) (by decide)⟩⟩

/-- The pending challenge for `(public_key, nonce)`, if any. -/
def findChallenge (st : AuthState) (pk nonce : List Nat) : Option Challenge :=
  st.challenges.find? (fun c => c.public_key == pk && c.nonce == nonce)

/-- Mark the challenge for `(public_key, nonce)` consumed (spec §4.2:
done atomically with successful verification). -/
def markConsumed (st : AuthState) (pk nonce : List Nat) : AuthState :=
  { st with
    challenges :=
      st.challenges.map (fun c =>
        if c.public_key == pk && c.nonce == nonce then { c with consumed := true } else c) }

/-- Modelled from the spec: `Verify(public_key, nonce, signature)`
(§4.2) — fails with `ChallengeNotFound` if the nonce is unknown or
already consumed, `ChallengeExpired` past TTL, `KeyNotRegistered` if no
agent is bound to the key, `SignatureInvalid` if the cryptographic check
fails; on success returns the bound agent identity and marks the
challenge consumed (the backend verification endpoint is not under
src/; the frontend `verifySignature` is the stateless client-side
analogue). -/
def verify (st : AuthState) (pk nonce sig : List Nat) (now : Nat) :
    Except AuthError (String × AuthState) :=
  match findChallenge st pk nonce with
  | none => .error .ChallengeNotFound
  | some c =>
      if c.consumed then .error .ChallengeNotFound
      else if c.expires_at ≤ now then .error .ChallengeExpired
      else
        match st.registry.find? (fun e => e.2 == pk) with
        | none => .error .KeyNotRegistered
        | some e =>
            if (naclVerifyDetached nonce sig pk).getD false then
              .ok (e.1, markConsumed st pk nonce)
            else .error .SignatureInvalid

theorem findChallenge_markConsumed (st : AuthState) (pk nonce : List Nat) :
    findChallenge (markConsumed st pk nonce) pk nonce =
      Option.map (fun c => if c.public_key == pk && c.nonce == nonce then
          { c with consumed := true } else c)
        (findChallenge st pk nonce) := by
  unfold findChallenge markConsumed
  rw [List.find?_map]
  have hcomp : ((fun c : Challenge => c.public_key == pk && c.nonce == nonce) ∘
      (fun c : Challenge => if c.public_key == pk && c.nonce == nonce then
        { c with consumed := true } else c)) =
      (fun c : Challenge => c.public_key == pk && c.nonce == nonce) := by
    funext c
    by_cases hc : (c.public_key == pk && c.nonce == nonce) = true
    · simp [Function.comp, hc]
    · simp [Function.comp, hc]
  rw [hcomp]

/-- C1: signature verification succeeds exactly once per nonce.  With a
pending unconsumed, unexpired challenge, a registered key and a valid
signature, `verify` succeeds and marks the challenge consumed, and a
second `verify` call with the same nonce against the resulting state
fails with `ChallengeNotFound` — the already-consumed error of §4.2. -/
theorem verify_consumes_nonce (st : AuthState) (aid : String) (pk nonce sig : List Nat)
    (now : Nat) (c : Challenge)
    (hfind : findChallenge st pk nonce = some c)
    (hcons : c.consumed = false)
    (hexp : now < c.expires_at)
    (hreg : st.registry.find? (fun e => e.2 == pk) = some (aid, pk))
    (hsig : naclVerifyDetached nonce sig pk = some true) :
    verify st pk nonce sig now = .ok (aid, markConsumed st pk nonce) ∧
    verify (markConsumed st pk nonce) pk nonce sig now = .error .ChallengeNotFound := by
  have hpred : (c.public_key == pk && c.nonce == nonce) = true :=
    find?_pred _ st.challenges c hfind
  constructor
  · unfold verify
    rw [hfind]
    simp only [hcons, Bool.false_eq_true, if_false, if_neg (by omega : ¬c.expires_at ≤ now),
      hreg, hsig]
    rfl
  · unfold verify
    rw [findChallenge_markConsumed, hfind]
    have hres : Option.map (fun c : Challenge =>
        if c.public_key == pk && c.nonce == nonce then { c with consumed := true } else c)
        (some c) = some { c with consumed := true } := by
      have h1 : Option.map (fun c : Challenge =>
          if c.public_key == pk && c.nonce == nonce then { c with consumed := true } else c)
          (some c) = some (if c.public_key == pk && c.nonce == nonce then
            { c with consumed := true } else c) := rfl
      rw [h1, if_pos hpred]
    rw [hres]
    rfl

/-- C1 witness: with one registered key and one pending challenge, the
first verification succeeds and the replay fails. -/
theorem verify_consumes_nonce_witness :
    findChallenge ⟨[("alice", List.replicate 32 1)],
        [⟨[5], List.replicate 32 1, 0, 120, false⟩]⟩ (List.replicate 32 1) [5] =
      some ⟨[5], List.replicate 32 1, 0, 120, false⟩ ∧
    (⟨[5], List.replicate 32 1, 0, 120, false⟩ : Challenge).consumed = false ∧
    0 < (⟨[5], List.replicate 32 1, 0, 120, false⟩ : Challenge).expires_at ∧
    List.find? (fun e => e.2 == List.replicate 32 1)
        [("alice", List.replicate 32 1)] = some ("alice", List.replicate 32 1) ∧
    naclVerifyDetached [5] (naclSigBytes (List.replicate 32 1) [5])
        (List.replicate 32 1) = some true ∧
    (verify ⟨[("alice", List.replicate 32 1)], [⟨[5], List.replicate 32 1, 0, 120, false⟩]⟩
        (List.replicate 32 1) [5] (naclSigBytes (List.replicate 32 1) [5]) 0 =
      .ok ("alice", markConsumed ⟨[("alice", List.replicate 32 1)],
        [⟨[5], List.replicate 32 1, 0, 120, false⟩]⟩ (List.replicate 32 1) [5]) ∧
     verify (markConsumed ⟨[("alice", List.replicate 32 1)],
        [⟨[5], List.replicate 32 1, 0, 120, false⟩]⟩ (List.replicate 32 1) [5])
        (List.replicate 32 1) [5] (naclSigBytes (List.replicate 32 1) [5]) 0 =
      .error .ChallengeNotFound) :=
  ⟨by decide, by decide, by decide, by decide, by decide,
    verify_consumes_nonce ⟨[("alice", List.replicate 32 1)],
        [⟨[5], List.replicate 32 1, 0, 120, false⟩]⟩ "alice" (List.replicate 32 1) [5]
        (naclSigBytes (List.replicate 32 1) [5]) 0 ⟨[5], List.replicate 32 1, 0, 120, false⟩
        (by decide) (by decide) (by decide) (by decide) (by decide)⟩

/-! ## SafetyOrchestrator (spec §4.5) -/

/-- A collaboration message (spec §3, Message). -/
structure Message where
  collab_id : String
  sender_id : String
  text : String
  is_flagged : Bool
  flag_reason : Option String
  created_at : Nat
deriving DecidableEq

/-- State of the safety orchestrator: the stored messages (they double
as the sliding-window rate counter). -/
structure OrchState where
  messages : List Message
deriving DecidableEq

/-- Default rate limit: 30 messages per window (spec §4.5). -/
def RATE_LIMIT : Nat := 30

/-- Rate window in seconds: one minute (spec §4.5). -/
def RATE_WINDOW : Nat := 60

/-- Maximum message length (spec §4.5 documented constant). -/
def MAX_MESSAGE_LENGTH : Nat := 10000

/-- Substring test on character lists. -/
def containsSub (text pat : List Char) : Bool :=
  match text with
  | [] => pat.isEmpty
  | _ :: rest => pat.isPrefixOf text || containsSub rest pat

/-- Substring test on strings. -/
def textContains (text pat : String) : Bool :=
  containsSub text.data pat.data

/-- Modelled from the spec: the fixed list of unsafe-pattern classes of
§4.5 (script-injection markers, code-execution markers, secret-looking
tokens, external-tool requests); the backend safety orchestrator is not
under src/. -/
def unsafePatterns : List (String × String) :=
  [("script_injection", "<script"),
   ("code_execution", "eval("),
   ("secret_leakage", "sk-"),
   ("tool_request", "use_tool")]

/-- Pattern inspection: the first matching class flags the message with
its name as reason; no match leaves it unflagged. -/
def inspectMessage (text : String) : Bool × Option String :=
  match unsafePatterns.find? (fun p => textContains text p.2) with
  | some p => (true, some p.1)
  | none => (false, none)

/-- Messages by this sender in this collaboration whose timestamp lies
in the sliding window `(now - RATE_WINDOW, now]`. -/
def windowCount (st : OrchState) (sender collab : String) (now : Nat) : Nat :=
  (st.messages.filter (fun m =>
    m.sender_id == sender && m.collab_id == collab &&
    decide (m.created_at ≤ now) && decide (now < m.created_at + RATE_WINDOW))).length

/-- Modelled from the spec: the message gate of §4.5 — rate limit first
(`RateLimited`, message rejected and not stored), then length check
(`MessageTooLong`), then pattern inspection; the message is always
stored, flagged or not. -/
def submitMessage (st : OrchState) (sender collab text : String) (now : Nat) :
    Except AuthError (Message × OrchState) :=
  if RATE_LIMIT ≤ windowCount st sender collab now then .error .RateLimited
  else if MAX_MESSAGE_LENGTH < text.length then .error .MessageTooLong
  else
    let flags := inspectMessage text
    let m : Message :=
      { collab_id := collab, sender_id := sender, text := text,
        is_flagged := flags.1, flag_reason := flags.2, created_at := now }
    .ok (m, { messages := st.messages ++ [m] })

/-- Submit a list of (text, timestamp) sends in order; a rejected send
leaves the state unchanged and its error is returned in the result
list. -/
def submitList (st : OrchState) (sender collab : String) :
    List (String × Nat) → OrchState × List (Except AuthError Message)
  | [] => (st, [])
  | (text, t) :: rest =>
      match submitMessage st sender collab text t with
      | .ok (m, st1) =>
          let r := submitList st1 sender collab rest
          (r.1, .ok m :: r.2)
      | .error e =>
          let r := submitList st sender collab rest
          (r.1, .error e :: r.2)

theorem windowCount_le (st : OrchState) (sender collab : String) (now : Nat) :
    windowCount st sender collab now ≤ st.messages.length :=
  List.length_filter_le _ _

theorem windowCount_full (st : OrchState) (sender collab : String) (now : Nat)
    (h : ∀ m ∈ st.messages, m.sender_id = sender ∧ m.collab_id = collab ∧
      m.created_at ≤ now ∧ now < m.created_at + RATE_WINDOW) :
    windowCount st sender collab now = st.messages.length := by
  unfold windowCount
  rw [List.filter_eq_self.mpr]
  intro m hm
  obtain ⟨h1, h2, h3, h4⟩ := h m hm
  simp [h1, h2, h3, h4]

theorem submitMessage_ok (st : OrchState) (sender collab text : String) (now : Nat)
    (hcount : windowCount st sender collab now < RATE_LIMIT)
    (hlen : text.length ≤ MAX_MESSAGE_LENGTH) :
    ∃ m, submitMessage st sender collab text now = .ok (m, ⟨st.messages ++ [m]⟩) ∧
      m.sender_id = sender ∧ m.collab_id = collab ∧ m.created_at = now := by
  unfold submitMessage
  rw [if_neg (by omega), if_neg (by omega)]
  exact ⟨_, rfl, rfl, rfl, rfl⟩

theorem submitList_all_ok (sender collab : String) (lastTime t0 : Nat) :
    ∀ (items : List (String × Nat)) (st : OrchState),
    st.messages.length + items.length ≤ RATE_LIMIT →
    (∀ m ∈ st.messages, m.sender_id = sender ∧ m.collab_id = collab ∧
      t0 ≤ m.created_at ∧ m.created_at < t0 + RATE_WINDOW ∧ m.created_at ≤ lastTime) →
    (∀ x ∈ items, x.1.length ≤ MAX_MESSAGE_LENGTH ∧ t0 ≤ x.2 ∧
      x.2 < t0 + RATE_WINDOW ∧ x.2 ≤ lastTime) →
    (∀ r ∈ (submitList st sender collab items).2, ∃ m, r = .ok m) ∧
    (submitList st sender collab items).2.length = items.length ∧
    (submitList st sender collab items).1.messages.length =
      st.messages.length + items.length ∧
    (∀ m ∈ (submitList st sender collab items).1.messages,
      m.sender_id = sender ∧ m.collab_id = collab ∧
      t0 ≤ m.created_at ∧ m.created_at < t0 + RATE_WINDOW ∧ m.created_at ≤ lastTime) := by
  intro items
  induction items with
  | nil =>
      intro st h1 h2 h3
      refine ⟨?_, ?_, ?_, h2⟩
      · intro r hr
        simp [submitList] at hr
      · simp [submitList]
      · simp [submitList]
  | cons x rest ih =>
      intro st h1 h2 h3
      obtain ⟨text, t⟩ := x
      obtain ⟨hxlen, hxt0, hxw, hxlast⟩ := h3 (text, t) (by simp)
      have hcount : windowCount st sender collab t < RATE_LIMIT := by
        have hle := windowCount_le st sender collab t
        have hlen := h1
        simp only [List.length_cons] at hlen
        omega
      obtain ⟨m, hok, hms, hmc, hmt⟩ := submitMessage_ok st sender collab text t hcount hxlen
      have hst1msgs : ∀ mm ∈ st.messages ++ [m], mm.sender_id = sender ∧
          mm.collab_id = collab ∧ t0 ≤ mm.created_at ∧
          mm.created_at < t0 + RATE_WINDOW ∧ mm.created_at ≤ lastTime := by
        intro mm hmm
        rcases List.mem_append.mp hmm with hmem | hmem
        · exact h2 mm hmem
        · have : mm = m := by simpa using hmem
          subst this
          exact ⟨hms, hmc, by omega, by omega, by omega⟩
      have hlen1 : (OrchState.mk (st.messages ++ [m])).messages.length + rest.length ≤
          RATE_LIMIT := by
        simp only [List.length_append, List.length_singleton]
        simp only [List.length_cons] at h1
        omega
      have hrest : ∀ x ∈ rest, x.1.length ≤ MAX_MESSAGE_LENGTH ∧ t0 ≤ x.2 ∧
          x.2 < t0 + RATE_WINDOW ∧ x.2 ≤ lastTime := by
        intro x hx
        exact h3 x (by simp [hx])
      obtain ⟨ha, hb, hc, hd⟩ := ih ⟨st.messages ++ [m]⟩ hlen1 hst1msgs hrest
      simp only [submitList, hok]
      refine ⟨?_, ?_, ?_, hd⟩
      · intro r hr
        rcases List.mem_cons.mp hr with rfl | hr2
        · exact ⟨m, rfl⟩
        · exact ha r hr2
      · simp only [List.length_cons, hb]
      · have hc2 : (submitList ⟨st.messages ++ [m]⟩ sender collab rest).1.messages.length
            = (st.messages ++ [m]).length + rest.length := hc
        simp only [List.length_append, List.length_singleton] at hc2
        simp only [List.length_cons]
        omega

theorem submitList_append (sender collab : String) (l1 l2 : List (String × Nat)) :
    ∀ st : OrchState, submitList st sender collab (l1 ++ l2) =
      ((submitList (submitList st sender collab l1).1 sender collab l2).1,
        (submitList st sender collab l1).2 ++
          (submitList (submitList st sender collab l1).1 sender collab l2).2) := by
  induction l1 with
  | nil =>
      intro st
      simp [submitList]
  | cons x rest ih =>
      intro st
      obtain ⟨text, t⟩ := x
      simp only [List.cons_append, submitList]
      rcases h : submitMessage st sender collab text t with e | p
      · simp only [List.append_eq, ih st, List.cons_append]
      · obtain ⟨m, st1⟩ := p
        simp only [List.append_eq, ih st1, List.cons_append]

/-- C6: per-sender sliding-window rate limit.  Starting from an empty
store, 30 sends by one `(sender, collab)` pair whose timestamps all lie
inside one 60-second window all succeed; the 31st attempt inside the
same window fails with `RateLimited`, the error is returned to the
caller in the result list, and the rejected message is not stored — the
state after the 31st attempt equals the state after the 30th. -/
theorem rate_limit_thirty (sender collab : String) (first30 : List (String × Nat))
    (lastText : String) (lastTime t0 : Nat)
    (hlen30 : first30.length = RATE_LIMIT)
    (hitems : ∀ x ∈ first30, x.1.length ≤ MAX_MESSAGE_LENGTH ∧ t0 ≤ x.2 ∧
      x.2 < t0 + RATE_WINDOW ∧ x.2 ≤ lastTime)
    (hlast : t0 ≤ lastTime ∧ lastTime < t0 + RATE_WINDOW) :
    (∀ r ∈ (submitList ⟨[]⟩ sender collab first30).2, ∃ m, r = .ok m) ∧
    (submitList ⟨[]⟩ sender collab first30).2.length = RATE_LIMIT ∧
    submitMessage (submitList ⟨[]⟩ sender collab first30).1 sender collab lastText
      lastTime = .error .RateLimited ∧
    (submitList ⟨[]⟩ sender collab (first30 ++ [(lastText, lastTime)])).2 =
      (submitList ⟨[]⟩ sender collab first30).2 ++ [.error .RateLimited] ∧
    (submitList ⟨[]⟩ sender collab (first30 ++ [(lastText, lastTime)])).1 =
      (submitList ⟨[]⟩ sender collab first30).1 := by
  obtain ⟨hok, hcnt, hlen, hmsgs⟩ :=
    submitList_all_ok sender collab lastTime t0 first30 ⟨[]⟩
      (by simp [hlen30]) (by intro m hm; cases hm) hitems
  have hwc : windowCount (submitList ⟨[]⟩ sender collab first30).1 sender collab
      lastTime = RATE_LIMIT := by
    rw [windowCount_full]
    · have hlen2 : (submitList ⟨[]⟩ sender collab first30).1.messages.length =
          ([] : List Message).length + first30.length := hlen
      simp only [List.length_nil, Nat.zero_add] at hlen2
      rw [hlen2, hlen30]
    · intro m hm
      obtain ⟨h1, h2, h3, h4, h5⟩ := hmsgs m hm
      refine ⟨h1, h2, by omega, ?_⟩
      have := hlast.2
      omega
  have hrl : submitMessage (submitList ⟨[]⟩ sender collab first30).1 sender collab
      lastText lastTime = .error .RateLimited := by
    unfold submitMessage
    rw [if_pos (by omega)]
  refine ⟨hok, by rw [hcnt, hlen30], hrl, ?_, ?_⟩
  · rw [submitList_append]
    simp only [submitList, hrl]
  · rw [submitList_append]
    simp only [submitList, hrl]

/-- C6 witness: 31 identical sends at one timestamp — 30 accepted, the
31st rejected and not stored. -/
theorem rate_limit_thirty_witness :
    (List.replicate 30 ("hi", 0)).length = RATE_LIMIT ∧
    (∀ x ∈ List.replicate 30 (("hi" : String), (0 : Nat)),
      x.1.length ≤ MAX_MESSAGE_LENGTH ∧ 0 ≤ x.2 ∧ x.2 < 0 + RATE_WINDOW ∧ x.2 ≤ 0) ∧
    ((0 : Nat) ≤ 0 ∧ 0 < 0 + RATE_WINDOW) ∧
    ((∀ r ∈ (submitList ⟨[]⟩ "a" "c" (List.replicate 30 ("hi", 0))).2, ∃ m, r = .ok m) ∧
      (submitList ⟨[]⟩ "a" "c" (List.replicate 30 ("hi", 0))).2.length = RATE_LIMIT ∧
      submitMessage (submitList ⟨[]⟩ "a" "c" (List.replicate 30 ("hi", 0))).1 "a" "c"
        "hi" 0 = .error .RateLimited ∧
      (submitList ⟨[]⟩ "a" "c" (List.replicate 30 ("hi", 0) ++ [("hi", 0)])).2 =
        (submitList ⟨[]⟩ "a" "c" (List.replicate 30 ("hi", 0))).2 ++
          [.error .RateLimited] ∧
      (submitList ⟨[]⟩ "a" "c" (List.replicate 30 ("hi", 0) ++ [("hi", 0)])).1 =
        (submitList ⟨[]⟩ "a" "c" (List.replicate 30 ("hi", 0))).1) :=
  ⟨by decide, by decide, by decide,
    rate_limit_thirty "a" "c" (List.replicate 30 ("hi", 0)) "hi" 0 0
      (by decide) (by decide) (by decide)⟩

theorem inspectMessage_script (text : String) (h : textContains text "<script" = true) :
    (inspectMessage text).1 = true ∧ (inspectMessage text).2 ≠ none := by
  unfold inspectMessage unsafePatterns
  rw [List.find?_cons_of_pos]
  · simp
  · exact h

theorem inspectMessage_clean (text : String)
    (h : ∀ p ∈ unsafePatterns, textContains text p.2 = false) :
    inspectMessage text = (false, none) := by
  unfold inspectMessage
  rw [List.find?_eq_none.mpr]
  intro p hp
  simp [h p hp]

/-- C7: flagging is advisory, never blocking.  When neither the rate
limit nor the length limit rejects the send, the message is always
stored and returned: with `is_flagged = true` and a non-null
`flag_reason` when the text matches an unsafe pattern (for example the
literal substring `<script`), and with `is_flagged = false` and a null
`flag_reason` when no pattern matches. -/
theorem flagging_advisory (st : OrchState) (sender collab text : String) (now : Nat)
    (hrate : windowCount st sender collab now < RATE_LIMIT)
    (hlen : text.length ≤ MAX_MESSAGE_LENGTH) :
    ∃ m st1, submitMessage st sender collab text now = .ok (m, st1) ∧
      m.text = text ∧ m ∈ st1.messages ∧
      (textContains text "<script" = true → m.is_flagged = true ∧ m.flag_reason ≠ none) ∧
      ((∀ p ∈ unsafePatterns, textContains text p.2 = false) →
        m.is_flagged = false ∧ m.flag_reason = none) := by
  unfold submitMessage
  rw [if_neg (by omega), if_neg (by omega)]
  refine ⟨_, _, rfl, rfl, by simp, ?_, ?_⟩
  · intro hscript
    exact inspectMessage_script text hscript
  · intro hclean
    have hc := inspectMessage_clean text hclean
    constructor
    · show (inspectMessage text).1 = false
      rw [hc]
    · show (inspectMessage text).2 = none
      rw [hc]

/-- C7 witness: a message containing `<script` is accepted, stored and
flagged with a reason; the hypothesis side conditions hold in the empty
state. -/
theorem flagging_advisory_witness :
    windowCount ⟨[]⟩ "a" "c" 0 < RATE_LIMIT ∧
    ("see <script> tag").length ≤ MAX_MESSAGE_LENGTH ∧
    textContains "see <script> tag" "<script" = true ∧
    (∃ m st1, submitMessage ⟨[]⟩ "a" "c" "see <script> tag" 0 = .ok (m, st1) ∧
      m.text = "see <script> tag" ∧ m ∈ st1.messages ∧
      (textContains "see <script> tag" "<script" = true →
        m.is_flagged = true ∧ m.flag_reason ≠ none) ∧
      ((∀ p ∈ unsafePatterns, textContains "see <script> tag" p.2 = false) →
        m.is_flagged = false ∧ m.flag_reason = none)) :=
  ⟨by decide, by decide, by decide,
    flagging_advisory ⟨[]⟩ "a" "c" "see <script> tag" 0 (by decide) (by decide)⟩
